import Mathlib

/-!
Verification of the markflow line-classification and reformat pipeline.

The development shallowly embeds:
* `markflow/detectors/_lines.py` — the single-line predicates;
* `markflow/reformat_markdown.py`  — the classification loop, the blank-line
  buffering render loop, and the two-pass idempotency check.

Documents and lines are modelled as lists of characters (`Line := List Char`),
so that Python string operations (`splitlines`, `strip`, `lstrip`,
`startswith`, `"\n".join`) become structural list functions that the kernel
can evaluate.

Components of the repository that live outside the sources being verified
(the section splitters, the per-section renderers, and `get_indent` from
`markflow/_utils.py`) are modelled from the specification; each such
definition carries a doc comment beginning `Modelled from the spec:`.
-/

/-- A line: a sequence of characters with no embedded line terminator. -/
abbrev Line := List Char

/-- An ordered sequence of lines (a document once split, or a remainder). -/
abbrev Lines := List Line

/-- Whitespace characters stripped by Python `str.strip()` / matched by
regex `\s` (restricted to the ASCII whitespace relevant to single lines). -/
def isPySpace (c : Char) : Bool :=
  c = ' ' || c = '\t' || c = '\n' || c = '\r' || c = '\x0b' || c = '\x0c'

/-- Characters of a string literal, used to write concrete lines. -/
def toL (s : String) : Line := s.data

/-- Python `str.lstrip()`. -/
def lstrip (l : Line) : Line := l.dropWhile isPySpace

/-- Python `str.rstrip()`. -/
def rstrip (l : Line) : Line := (l.reverse.dropWhile isPySpace).reverse

/-- Python `str.strip()`. -/
def strip (l : Line) : Line := rstrip (lstrip l)

/-- Python `str.splitlines()` for documents whose only line terminator is
`'\n'`: `""` gives no lines, a trailing `'\n'` does not create an extra
empty line, and `"\n"` gives one empty line. -/
def splitlines (cs : List Char) : List (List Char) :=
  match cs with
  | [] => []
  | c :: rest =>
    if c = '\n' then [] :: splitlines rest
    else
      match splitlines rest with
      | [] => [[c]]
      | l :: ls => (c :: l) :: ls

/-- Python `"\n".join(parts)`. -/
def joinSep : List (List Char) → List Char
  | [] => []
  | [p] => p
  | p :: q :: ps => p ++ '\n' :: joinSep (q :: ps)

/-- Bool test that `pat` is an initial segment of `l` (Python `startswith`). -/
def startsWithL (l pat : List Char) : Bool :=
  match pat, l with
  | [], _ => true
  | _ :: _, [] => false
  | p :: ps, c :: cs => p = c && startsWithL cs ps

/-- Modelled from the spec: `get_indent` from `markflow/_utils.py` is not
under the verified sources; per the spec it returns the line's
leading-whitespace column count, modelled as the number of leading
whitespace characters. -/
def get_indent (l : Line) : Nat := (l.takeWhile isPySpace).length

/-- Source `is_indented_code_block_start_line`: non-blank and indented by at
least four columns. -/
def is_indented_code_block_start_line (l : Line) : Bool :=
  !(strip l).isEmpty && decide (4 ≤ get_indent l)

/-- Source `is_atx_heading_line`: not an indented code block start and the
left-stripped line begins with `#`. -/
def is_atx_heading_line (l : Line) : Bool :=
  !is_indented_code_block_start_line l && startsWithL (lstrip l) (toL "#")

/-- Source `is_blank_line_line`: the stripped line is empty. -/
def is_blank_line_line (l : Line) : Bool := (strip l).isEmpty

/-- Source `is_block_quote_line`: not an indented code block start and the
left-stripped line begins with `>`. -/
def is_block_quote_line (l : Line) : Bool :=
  !is_indented_code_block_start_line l && startsWithL (lstrip l) (toL ">")

/-- Source `is_fenced_code_block_start_line`: the stripped line begins with
three backticks or three tildes (the loop over
`FENCED_CODE_BLOCK_FENCE_CHARACTERS` with `fence * 3`). -/
def is_fenced_code_block_start_line (l : Line) : Bool :=
  startsWithL (strip l) (toL "```") || startsWithL (strip l) (toL "~~~")

/-- Body of `LIST_START_REGEX` after the leading `\s*`: one of `*`, `-`,
`+`, or a run of digits followed by `.`, then a mandatory space. -/
def listMarkerMatch (l : Line) : Bool :=
  match l with
  | '*' :: ' ' :: _ => true
  | '-' :: ' ' :: _ => true
  | '+' :: ' ' :: _ => true
  | _ =>
      let ds := l.takeWhile Char.isDigit
      !ds.isEmpty && startsWithL (l.drop ds.length) (toL ". ")

/-- Source `is_list_start_line`: not an indented code block start and
`LIST_START_REGEX` (anchored at the start of the line) matches. -/
def is_list_start_line (l : Line) : Bool :=
  !is_indented_code_block_start_line l && listMarkerMatch (lstrip l)

/-- Source `is_table_start_line`: the left-stripped line begins with `|`. -/
def is_table_start_line (l : Line) : Bool :=
  startsWithL (lstrip l) (toL "|")

/-- Source `is_thematic_break_line`: with all whitespace removed the line
has length at least three and consists of one repeated symbol from
`THEMATIC_BREAK_CHARACTERS = ["*", "_", "-"]`. -/
def is_thematic_break_line (l : Line) : Bool :=
  if is_indented_code_block_start_line l then false
  else
    let spaceless := l.filter (fun c => !isPySpace c)
    if spaceless.length < 3 then false
    else
      spaceless.all (· = '*') || spaceless.all (· = '_') ||
        spaceless.all (· = '-')

/-- Source `is_paragraph_start_line`: the loop over the eight checkers
`is_indented_code_block_start_line`, `is_atx_heading_line`,
`is_blank_line_line`, `is_block_quote_line`,
`is_fenced_code_block_start_line`, `is_list_start_line`,
`is_table_start_line`, `is_thematic_break_line` returns `False` as soon as
one matches, else `True`. -/
def is_paragraph_start_line (l : Line) : Bool :=
  !(is_indented_code_block_start_line l || is_atx_heading_line l ||
    is_blank_line_line l || is_block_quote_line l ||
    is_fenced_code_block_start_line l || is_list_start_line l ||
    is_table_start_line l || is_thematic_break_line l)

/-- Source `is_setext_underline`: not an indented code block start, stripped
line non-empty, consisting entirely of `=` or entirely of `-`. -/
def is_setext_underline (l : Line) : Bool :=
  !is_indented_code_block_start_line l && !(strip l).isEmpty &&
    ((strip l).all (· = '=') || (strip l).all (· = '-'))

/-- The closed enumeration of section types (`MarkdownSectionEnum`). -/
inductive SectionType where
  | ATX_HEADING
  | BLANK_LINE
  | BLOCK_QUOTE
  | FENCED_CODE_BLOCK
  | INDENTED_CODE_BLOCK
  | LINK_REFERENCE_DEFINITION
  | LIST
  | PARAGRAPH
  | SETEXT_HEADING
  | TABLE
  | THEMATIC_BREAK
deriving DecidableEq

/-- Errors of the pipeline.  `couldNotDetermine n` models the
`RuntimeError("Could not determine section type on line n")` raised by the
classification loop; `reformatInconsistent` models
`ReformatInconsistentException`; `nonTermination` models divergence of the
`while remaining_lines:` loop when a splitter repeatedly consumes nothing
while rewriting the remainder (unreachable for genuine splitters, which
consume at least one line whenever they report a non-empty match). -/
inductive MarkflowError where
  | couldNotDetermine (line : Nat)
  | reformatInconsistent
  | nonTermination
deriving DecidableEq

/-- A section splitter: consumed lines and remaining lines (`SplitFunc`). -/
abbrev Splitter := Lines → Lines × Lines

/-- Source `split_atx_heading` is not under the verified sources.
Modelled from the spec: consumes exactly one line if it matches the ATX
predicate. -/
def split_atx_heading : Splitter := fun ls =>
  match ls with
  | [] => ([], [])
  | l :: rest => if is_atx_heading_line l then ([l], rest) else ([], l :: rest)

/-- Source `split_blank_line` is not under the verified sources.
Modelled from the spec: consumes a maximal run of consecutive blank lines
from the head. -/
def split_blank_line : Splitter := fun ls =>
  (ls.takeWhile is_blank_line_line, ls.dropWhile is_blank_line_line)

/-- Continuation scan for the block quote splitter: consumes block-quote
lines, and after a block-quote line also a lazy continuation (a non-blank
line that does not itself start another section type); a blank line
terminates the run. -/
def bqGo : Lines → Bool → Lines × Lines
  | [], _ => ([], [])
  | l :: rest, prevBQ =>
    if is_block_quote_line l then
      let (c, r) := bqGo rest true
      (l :: c, r)
    else if prevBQ && !is_blank_line_line l && is_paragraph_start_line l then
      let (c, r) := bqGo rest false
      (l :: c, r)
    else ([], l :: rest)

/-- Source `split_block_quote` is not under the verified sources.
Modelled from the spec: consumes a maximal run of lines that each match
block-quote or are a lazy continuation immediately following a block-quote
line; a blank line always terminates the run. -/
def split_block_quote : Splitter := fun ls =>
  match ls with
  | [] => ([], [])
  | l :: rest =>
    if is_block_quote_line l then
      let (c, r) := bqGo rest true
      (l :: c, r)
    else ([], l :: rest)

/-- Does `l` close a fence opened with character `fc` and length `n`? -/
def isClosingFence (fc : Char) (n : Nat) (l : Line) : Bool :=
  !(strip l).isEmpty && (strip l).all (· = fc) && decide (n ≤ (strip l).length)

/-- Body scan for the fenced code block splitter: consume verbatim until a
closing fence line (consumed too) or end of document. -/
def fencedGo (fc : Char) (n : Nat) : Lines → Lines × Lines
  | [] => ([], [])
  | l :: rest =>
    if isClosingFence fc n l then ([l], rest)
    else
      let (b, r) := fencedGo fc n rest
      (l :: b, r)

/-- Source `split_fenced_code_block` is not under the verified sources.
Modelled from the spec: once opened by a fence line, consumes every line
verbatim until a closing line of the same fence character with length at
least the opening length, or end of document. -/
def split_fenced_code_block : Splitter := fun ls =>
  match ls with
  | [] => ([], [])
  | l :: rest =>
    if is_fenced_code_block_start_line l then
      let s := strip l
      let fc := s.headD ' '
      let n := (s.takeWhile (· = fc)).length
      let (b, r) := fencedGo fc n rest
      (l :: b, r)
    else ([], l :: rest)

/-- Lines an indented code block run may contain. -/
def indentedRunLine (l : Line) : Bool :=
  is_indented_code_block_start_line l || is_blank_line_line l

/-- Source `split_indented_code_block` is not under the verified sources.
Modelled from the spec: consumes a maximal run of indented-or-blank lines,
with trailing blank lines excluded from the section and returned to the
remainder. -/
def split_indented_code_block : Splitter := fun ls =>
  match ls with
  | [] => ([], [])
  | l :: rest =>
    if is_indented_code_block_start_line l then
      let run := (l :: rest).takeWhile indentedRunLine
      let tail := (l :: rest).dropWhile indentedRunLine
      let kept := (run.reverse.dropWhile is_blank_line_line).reverse
      (kept, run.drop kept.length ++ tail)
    else ([], l :: rest)

/-- Scan for `]` immediately followed by `:`, returning the characters
after it. -/
def afterLabelColon : List Char → Option (List Char)
  | [] => none
  | ']' :: ':' :: rest => some rest
  | _ :: rest => afterLabelColon rest

/-- Modelled from the spec: a line matching the link reference definition
pattern `[label]: destination` (a `[`, a label closed by `]:`, and a
non-empty destination). -/
def is_link_reference_definition_line (l : Line) : Bool :=
  match lstrip l with
  | '[' :: rest =>
    match afterLabelColon rest with
    | some after => !(strip after).isEmpty
    | none => false
  | _ => false

/-- Indented continuation line of a link reference definition. -/
def lrContinuation (l : Line) : Bool :=
  !is_blank_line_line l && decide (1 ≤ get_indent l)

/-- Source `split_link_reference_definition` is not under the verified
sources.  Modelled from the spec: consumes a line matching
`[label]: destination` and any immediately following indented continuation
lines. -/
def split_link_reference_definition : Splitter := fun ls =>
  match ls with
  | [] => ([], [])
  | l :: rest =>
    if is_link_reference_definition_line l then
      (l :: rest.takeWhile lrContinuation, rest.dropWhile lrContinuation)
    else ([], l :: rest)

/-- A line continuing a list section: a further list marker, or a non-blank
line indented at least to the column where the opening marker's content
began. -/
def listContinuation (l : Line) : Bool :=
  is_list_start_line l || (!is_blank_line_line l && decide (2 ≤ get_indent l))

/-- Continuation scan for the list splitter: consumes continuation lines;
a blank line is consumed only when the line after it continues the list,
otherwise it terminates the section. -/
def listGo : Lines → Lines × Lines
  | [] => ([], [])
  | l :: rest =>
    if listContinuation l then
      let (c, r) := listGo rest
      (l :: c, r)
    else if is_blank_line_line l then
      match rest with
      | [] => ([], [l])
      | r0 :: _ =>
        if listContinuation r0 then
          let (c, r) := listGo rest
          (l :: c, r)
        else ([], l :: rest)
    else ([], l :: rest)

/-- Source `split_list` is not under the verified sources.  Modelled from
the spec: consumes the opening list-item line and all following
continuation lines, with a blank line followed by a non-continuation line
as the terminator. -/
def split_list : Splitter := fun ls =>
  match ls with
  | [] => ([], [])
  | l :: rest =>
    if is_list_start_line l then
      let (c, r) := listGo rest
      (l :: c, r)
    else ([], l :: rest)

/-- Heading scan for the setext splitter: collects paragraph lines until a
setext underline (checked first); any other line, or end of document,
means no match. -/
def setextGo : Lines → Option (Lines × Line × Lines)
  | [] => none
  | l :: rest =>
    if is_setext_underline l then some ([], l, rest)
    else if is_paragraph_start_line l then
      (setextGo rest).map (fun (b, u, r) => (l :: b, u, r))
    else none

/-- Source `split_setext_heading` is not under the verified sources.
Modelled from the spec: consumes a paragraph-start line (or short run of
lines) that is immediately followed by a setext underline; otherwise
matches nothing. -/
def split_setext_heading : Splitter := fun ls =>
  match ls with
  | [] => ([], [])
  | l :: rest =>
    if is_paragraph_start_line l then
      match setextGo rest with
      | some (b, u, r) => (l :: (b ++ [u]), r)
      | none => ([], l :: rest)
    else ([], l :: rest)

/-- Source `split_paragraph` is not under the verified sources.  Modelled
from the spec: consumes a maximal run of consecutive lines each qualifying
as paragraph start or continuation, terminated by a blank line, a line
opening another section type, or end of document. -/
def split_paragraph : Splitter := fun ls =>
  (ls.takeWhile is_paragraph_start_line, ls.dropWhile is_paragraph_start_line)

/-- Source `split_table` is not under the verified sources.  Modelled from
the spec: consumes a maximal run of consecutive lines each matching
table-start. -/
def split_table : Splitter := fun ls =>
  (ls.takeWhile is_table_start_line, ls.dropWhile is_table_start_line)

/-- Source `split_thematic_break` is not under the verified sources.
Modelled from the spec: consumes exactly one line if it matches. -/
def split_thematic_break : Splitter := fun ls =>
  match ls with
  | [] => ([], [])
  | l :: rest =>
    if is_thematic_break_line l then ([l], rest) else ([], l :: rest)

/-- The fixed priority-ordered splitter list `SPLITTERS` of
`reformat_markdown.py`. -/
def SPLITTERS : List (SectionType × Splitter) :=
  [(SectionType.ATX_HEADING, split_atx_heading),
   (SectionType.BLANK_LINE, split_blank_line),
   (SectionType.BLOCK_QUOTE, split_block_quote),
   (SectionType.FENCED_CODE_BLOCK, split_fenced_code_block),
   (SectionType.INDENTED_CODE_BLOCK, split_indented_code_block),
   (SectionType.LINK_REFERENCE_DEFINITION, split_link_reference_definition),
   (SectionType.LIST, split_list),
   (SectionType.SETEXT_HEADING, split_setext_heading),
   (SectionType.PARAGRAPH, split_paragraph),
   (SectionType.TABLE, split_table),
   (SectionType.THEMATIC_BREAK, split_thematic_break)]

/-- A classified section record: its type and its lines. -/
abbrev Section := SectionType × Lines

/-- One round of the inner `for section_type, splitter in SPLITTERS:` loop:
each splitter is applied to the current remainder (which it rebinds even on
a failed match, exactly as `section_content, remaining_lines =
splitter(remaining_lines)` does), and the first non-empty consumed prefix
wins. -/
def trySplitters : List (SectionType × Splitter) → Lines →
    Option (SectionType × Lines × Lines)
  | [], _ => none
  | (t, s) :: rest, rem =>
    match s rem with
    | (c, r) => if c.isEmpty then trySplitters rest r else some (t, c, r)

/-- Total number of lines held by a list of section records
(`sum(len(content) for type, content in sections)`). -/
def lineCount (ss : List Section) : Nat := (ss.map (fun s => s.2.length)).sum

/-- The lines of a list of section records, concatenated in order. -/
def sectionLines (ss : List Section) : Lines := (ss.map (fun s => s.2)).flatten

/-- The `while remaining_lines:` classification loop.  `acc` holds the
classified sections in reverse; `fuel` bounds the number of iterations (the
Python loop diverges when a splitter reports a non-empty match without
shrinking the remainder; that impossible-for-real-splitters situation is
mapped to the `nonTermination` error). -/
def classifyAux (splitters : List (SectionType × Splitter)) :
    Nat → Lines → List Section → Except MarkflowError (List Section)
  | _, [], acc => .ok acc.reverse
  | 0, _ :: _, _ => .error .nonTermination
  | fuel + 1, l :: ls, acc =>
    match trySplitters splitters (l :: ls) with
    | none => .error (.couldNotDetermine (lineCount acc + 1))
    | some (t, c, r) => classifyAux splitters fuel r ((t, c) :: acc)

/-- Classification of a document's lines: the loop of
`_reformat_markdown_text` up to the construction of `sections`. -/
def classify (splitters : List (SectionType × Splitter)) (ls : Lines) :
    Except MarkflowError (List Section) :=
  classifyAux splitters ls.length ls []

/-- The blank-buffering loop of the render phase: blank-line records are
accumulated in `buf` and flushed (in order) before the next non-blank
record; a buffered run remaining at the end of the document is dropped. -/
def selectAux : List Section → List Section → List Section
  | _, [] => []
  | buf, (t, c) :: rest =>
    if t = SectionType.BLANK_LINE then selectAux (buf ++ [(t, c)]) rest
    else buf ++ (t, c) :: selectAux [] rest

/-- The section records that actually reach the output, in order (the
`formatters` list of the render phase, keeping each record's type and
lines; the offsets passed to the formatter constructors feed only logging
and the renderers, which use only section-local information). -/
def selectSections (ss : List Section) : List Section := selectAux [] ss

/-- A renderer family: section type, section lines, target width to
rendered text (the `FORMATTERS` dispatch composed with `reformatted`). -/
abbrev Render := SectionType → Lines → Nat → List Char

/-- Modelled from the spec: the per-section renderers are external
collaborators specified only by contract (pure and idempotent, using only
section-local information).  They are modelled as the identity on the
section's lines, with blank sections rendering as the empty text, which
realises the canonical single-blank-line separation. -/
def renderModel : Render := fun t c _ =>
  match t with
  | SectionType.BLANK_LINE => []
  | _ => joinSep c

/-- `_reformat_markdown_text`, parameterized by the splitter list and
renderer family: classify the split lines, run the blank-buffering render
loop, and join with `"\n"` plus a final `"\n"`. -/
def reformatOnceWith (splitters : List (SectionType × Splitter))
    (render : Render) (text : List Char) (width : Nat) :
    Except MarkflowError (List Char) :=
  match classify splitters (splitlines text) with
  | .error e => .error e
  | .ok ss =>
    .ok (joinSep ((selectSections ss).map (fun s => render s.1 s.2 width)) ++
      ['\n'])

/-- `reformat_markdown_text`, parameterized by the renderer family: run
`_reformat_markdown_text`, run it again on the output, raise
`ReformatInconsistentException` if the outputs differ, otherwise return the
first output. -/
def reformatG (render : Render) (text : List Char) (width : Nat) :
    Except MarkflowError (List Char) :=
  match reformatOnceWith SPLITTERS render text width with
  | .error e => .error e
  | .ok t1 =>
    match reformatOnceWith SPLITTERS render t1 width with
    | .error e => .error e
    | .ok t2 => if t2 = t1 then .ok t1 else .error .reformatInconsistent

/-- The single reformatting pass `_reformat_markdown_text` with the
repository's splitters and the modelled renderers. -/
def _reformat_markdown_text (text : List Char) (width : Nat) :
    Except MarkflowError (List Char) :=
  reformatOnceWith SPLITTERS renderModel text width

/-- The top-level entry point `reformat_markdown_text` with the modelled
renderers. -/
def reformat_markdown_text (text : List Char) (width : Nat) :
    Except MarkflowError (List Char) :=
  reformatG renderModel text width

deriving instance DecidableEq for Except

theorem sectionLines_append (xs ys : List Section) :
    sectionLines (xs ++ ys) = sectionLines xs ++ sectionLines ys := by
  simp [sectionLines]

theorem lineCount_eq_length_sectionLines (ss : List Section) :
    lineCount ss = (sectionLines ss).length := by
  simp only [lineCount, sectionLines, List.length_flatten, List.map_map]
  rfl

theorem trySplitters_some_concat
    (splitters : List (SectionType × Splitter))
    (H : ∀ p ∈ splitters, ∀ ls, (p.2 ls).1 ++ (p.2 ls).2 = ls) :
    ∀ rem t c r, trySplitters splitters rem = some (t, c, r) →
      c ++ r = rem ∧ c ≠ [] := by
  induction splitters with
  | nil => intro rem t c r h; simp [trySplitters] at h
  | cons p ps ih =>
    intro rem t c r h
    obtain ⟨t0, s0⟩ := p
    have hhead : (s0 rem).1 ++ (s0 rem).2 = rem := H (t0, s0) (by simp) rem
    rw [trySplitters] at h
    rcases hsr : s0 rem with ⟨c0, r0⟩
    rw [hsr] at h hhead
    simp only at h hhead
    by_cases hc : c0.isEmpty
    · rw [if_pos hc] at h
      have hr : r0 = rem := by
        rw [List.isEmpty_iff] at hc
        simpa [hc] using hhead
      rw [hr] at h
      exact ih (fun q hq ls => H q (List.mem_cons_of_mem _ hq) ls) rem t c r h
    · rw [if_neg hc] at h
      simp only [Option.some.injEq, Prod.mk.injEq] at h
      obtain ⟨rfl, rfl, rfl⟩ := h
      refine ⟨hhead, ?_⟩
      simpa [List.isEmpty_iff] using hc

theorem classifyAux_ok_concat
    (splitters : List (SectionType × Splitter))
    (H : ∀ p ∈ splitters, ∀ ls, (p.2 ls).1 ++ (p.2 ls).2 = ls) :
    ∀ fuel rem acc ss, classifyAux splitters fuel rem acc = .ok ss →
      sectionLines ss = sectionLines acc.reverse ++ rem := by
  intro fuel
  induction fuel with
  | zero =>
    intro rem acc ss h
    cases rem with
    | nil =>
      simp only [classifyAux, Except.ok.injEq] at h
      subst h; simp
    | cons l ls => simp [classifyAux] at h
  | succ n ih =>
    intro rem acc ss h
    cases rem with
    | nil =>
      simp only [classifyAux, Except.ok.injEq] at h
      subst h; simp
    | cons l ls =>
      rw [classifyAux] at h
      cases htry : trySplitters splitters (l :: ls) with
      | none => rw [htry] at h; simp at h
      | some tcr =>
        obtain ⟨t, c, r⟩ := tcr
        rw [htry] at h
        simp only at h
        obtain ⟨hcr, -⟩ := trySplitters_some_concat splitters H (l :: ls) t c r htry
        have hrec := ih r ((t, c) :: acc) ss h
        rw [hrec, List.reverse_cons, sectionLines_append]
        simp [sectionLines, List.append_assoc, hcr]

theorem lineCount_reverse (ss : List Section) :
    lineCount ss.reverse = lineCount ss := by
  simp [lineCount, List.sum_reverse]

/-- C2: if every splitter returns a (consumed, remainder) pair whose
concatenation equals its input, then the classification loop of
`_reformat_markdown_text` produces section records whose line sequences,
concatenated in classification order, equal the splitlines of the input
exactly (no line duplicated, dropped, or reordered), and at every iteration
(i.e. for every intermediate loop state `(rem, acc)` from which the loop
completes with sections `ss`) the number of lines consumed so far plus the
length of the remainder equals the classification's total line count. -/
theorem C2_classification_complete
    (splitters : List (SectionType × Splitter))
    (H : ∀ p ∈ splitters, ∀ ls, (p.2 ls).1 ++ (p.2 ls).2 = ls) :
    (∀ ls ss, classify splitters ls = .ok ss → sectionLines ss = ls) ∧
    (∀ fuel rem acc ss, classifyAux splitters fuel rem acc = .ok ss →
      sectionLines ss = sectionLines acc.reverse ++ rem ∧
      lineCount acc + rem.length = lineCount ss) := by
  have inv : ∀ fuel rem acc ss, classifyAux splitters fuel rem acc = .ok ss →
      sectionLines ss = sectionLines acc.reverse ++ rem ∧
      lineCount acc + rem.length = lineCount ss := by
    intro fuel rem acc ss h
    have hconcat := classifyAux_ok_concat splitters H fuel rem acc ss h
    refine ⟨hconcat, ?_⟩
    have hlen := congrArg List.length hconcat
    rw [List.length_append] at hlen
    rw [lineCount_eq_length_sectionLines ss, hlen,
      ← lineCount_eq_length_sectionLines acc.reverse, lineCount_reverse]
  refine ⟨?_, inv⟩
  intro ls ss h
  have := (inv ls.length ls [] ss h).1
  simpa [sectionLines] using this

/-- Witness for C2 at a concrete splitter list (a single splitter that
consumes its whole input) and a concrete two-line document. -/
theorem C2_classification_complete_witness :
    sectionLines [(SectionType.PARAGRAPH, [toL "a", toL "b"])] =
      [toL "a", toL "b"] :=
  (C2_classification_complete
      [(SectionType.PARAGRAPH, fun ls => (ls, ([] : Lines)))]
      (by intro p hp ls; simp at hp; subst hp; simp)).1
    [toL "a", toL "b"] [(SectionType.PARAGRAPH, [toL "a", toL "b"])] (by rfl)

theorem classifyAux_ne_inconsistent
    (splitters : List (SectionType × Splitter)) :
    ∀ fuel rem acc, classifyAux splitters fuel rem acc ≠
      .error .reformatInconsistent := by
  intro fuel
  induction fuel with
  | zero =>
    intro rem acc
    cases rem with
    | nil => simp [classifyAux]
    | cons l ls => simp [classifyAux]
  | succ n ih =>
    intro rem acc
    cases rem with
    | nil => simp [classifyAux]
    | cons l ls =>
      rw [classifyAux]
      cases htry : trySplitters splitters (l :: ls) with
      | none => simp
      | some tcr =>
        obtain ⟨t, c, r⟩ := tcr
        simp only
        exact ih r ((t, c) :: acc)

theorem reformatOnceWith_ne_inconsistent
    (splitters : List (SectionType × Splitter)) (render : Render)
    (text : List Char) (width : Nat) :
    reformatOnceWith splitters render text width ≠
      .error .reformatInconsistent := by
  rw [reformatOnceWith]
  cases hcl : classify splitters (splitlines text) with
  | error e =>
    simp only
    intro h
    exact classifyAux_ne_inconsistent splitters _ _ _
      (hcl.trans (congrArg Except.error (Except.error.inj h)))
  | ok ss => simp

/-- C1: idempotence of the top-level entry point.  For every renderer
family, every document `D` and width `W` for which `reformat_markdown_text`
returns without raising, applying it again to its own result is a no-op;
in particular this holds for the pipeline instantiated with the modelled
renderers (`reformat_markdown_text`). -/
theorem C1_reformat_idempotent :
    (∀ (render : Render) (D : List Char) (W : Nat) (T : List Char),
      reformatG render D W = .ok T → reformatG render T W = .ok T) ∧
    (∀ (D : List Char) (W : Nat) (T : List Char),
      reformat_markdown_text D W = .ok T →
        reformat_markdown_text T W = .ok T) := by
  have main : ∀ (render : Render) (D : List Char) (W : Nat) (T : List Char),
      reformatG render D W = .ok T → reformatG render T W = .ok T := by
    intro render D W T h
    rw [reformatG] at h
    cases h1 : reformatOnceWith SPLITTERS render D W with
    | error e => rw [h1] at h; simp at h
    | ok t1 =>
      rw [h1] at h
      simp only at h
      cases h2 : reformatOnceWith SPLITTERS render t1 W with
      | error e => rw [h2] at h; simp at h
      | ok t2 =>
        rw [h2] at h
        simp only at h
        by_cases heq : t2 = t1
        · rw [if_pos heq] at h
          have hT : t1 = T := Except.ok.inj h
          subst hT; subst heq
          simp [reformatG, h2]
        · rw [if_neg heq] at h; simp at h
  exact ⟨main, fun D W T h => main renderModel D W T h⟩

/-- Witness for C1: the empty document reformats successfully to `"\n"`,
and reformatting that output again is a no-op. -/
theorem C1_reformat_idempotent_witness :
    reformat_markdown_text (toL "\n") 88 = .ok (toL "\n") :=
  C1_reformat_idempotent.2 (toL "") 88 (toL "\n") (by decide)

/-- C3: `reformat_markdown_text` raises `ReformatInconsistentException` if
and only if the second internal pass, run on the first pass's output,
produces text different from that output; when the two passes agree it
returns the first pass's output (and no other result is possible).  Stated
for every renderer family, and instantiated at the modelled renderers. -/
theorem C3_inconsistency_check :
    (∀ (render : Render) (D : List Char) (W : Nat),
      (reformatG render D W = .error .reformatInconsistent ↔
        ∃ T T', reformatOnceWith SPLITTERS render D W = .ok T ∧
          reformatOnceWith SPLITTERS render T W = .ok T' ∧ T' ≠ T) ∧
      (∀ T, reformatOnceWith SPLITTERS render D W = .ok T →
        reformatOnceWith SPLITTERS render T W = .ok T →
        reformatG render D W = .ok T)) ∧
    (∀ (D : List Char) (W : Nat),
      (reformat_markdown_text D W = .error .reformatInconsistent ↔
        ∃ T T', _reformat_markdown_text D W = .ok T ∧
          _reformat_markdown_text T W = .ok T' ∧ T' ≠ T) ∧
      (∀ T, _reformat_markdown_text D W = .ok T →
        _reformat_markdown_text T W = .ok T →
        reformat_markdown_text D W = .ok T)) := by
  have main : ∀ (render : Render) (D : List Char) (W : Nat),
      (reformatG render D W = .error .reformatInconsistent ↔
        ∃ T T', reformatOnceWith SPLITTERS render D W = .ok T ∧
          reformatOnceWith SPLITTERS render T W = .ok T' ∧ T' ≠ T) ∧
      (∀ T, reformatOnceWith SPLITTERS render D W = .ok T →
        reformatOnceWith SPLITTERS render T W = .ok T →
        reformatG render D W = .ok T) := by
    intro render D W
    constructor
    · constructor
      · intro h
        rw [reformatG] at h
        cases h1 : reformatOnceWith SPLITTERS render D W with
        | error e =>
          rw [h1] at h
          simp only at h
          exact absurd (h1.trans h)
            (reformatOnceWith_ne_inconsistent SPLITTERS render D W)
        | ok t1 =>
          rw [h1] at h
          simp only at h
          cases h2 : reformatOnceWith SPLITTERS render t1 W with
          | error e =>
            rw [h2] at h
            simp only at h
            exact absurd (h2.trans h)
              (reformatOnceWith_ne_inconsistent SPLITTERS render t1 W)
          | ok t2 =>
            rw [h2] at h
            simp only at h
            by_cases heq : t2 = t1
            · rw [if_pos heq] at h; simp at h
            · exact ⟨t1, t2, rfl, h2, heq⟩
      · rintro ⟨T, T', hT, hT', hne⟩
        simp [reformatG, hT, hT', hne]
    · intro T h1 h2
      simp [reformatG, h1, h2]
  exact ⟨main, fun D W => main renderModel D W⟩

/-- Witness for C3: on the empty document the two internal passes agree on
`"\n"`, so the entry point returns it (no exception). -/
theorem C3_inconsistency_check_witness :
    reformat_markdown_text (toL "") 88 = .ok (toL "\n") :=
  (C3_inconsistency_check.2 (toL "") 88).2 (toL "\n") (by decide) (by decide)

/-- C8: if for a non-empty remainder no splitter returns a non-empty
consumed prefix, the classification loop raises the fatal
`RuntimeError` whose reported 1-indexed line number is the total number of
lines in the already-classified sections plus one (`acc` holds those
sections, in reverse order, so their line total is `lineCount acc`), and a
classification error propagates unchanged out of
`_reformat_markdown_text` (no retry). -/
theorem C8_classification_failure :
    (∀ (splitters : List (SectionType × Splitter)) (fuel : Nat) (rem : Lines)
      (acc : List Section), rem ≠ [] → trySplitters splitters rem = none →
      classifyAux splitters (fuel + 1) rem acc =
        .error (.couldNotDetermine (lineCount acc + 1))) ∧
    (∀ (splitters : List (SectionType × Splitter)) (render : Render)
      (text : List Char) (width : Nat) (e : MarkflowError),
      classify splitters (splitlines text) = .error e →
      reformatOnceWith splitters render text width = .error e) := by
  constructor
  · intro splitters fuel rem acc hne htry
    cases rem with
    | nil => exact absurd rfl hne
    | cons l ls => rw [classifyAux, htry]
  · intro splitters render text width e hcl
    rw [reformatOnceWith, hcl]

/-- Witness for C8: with an empty splitter list nothing matches, so
classifying a one-line document fails on line 1, and the error propagates
out of the single reformatting pass. -/
theorem C8_classification_failure_witness :
    classifyAux ([] : List (SectionType × Splitter)) 1 [toL "x"] [] =
      .error (.couldNotDetermine 1) ∧
    reformatOnceWith ([] : List (SectionType × Splitter)) renderModel
      (toL "x") 88 = .error (.couldNotDetermine 1) :=
  ⟨C8_classification_failure.1 [] 0 [toL "x"] [] (by decide) (by rfl),
   C8_classification_failure.2 [] renderModel (toL "x") 88
     (.couldNotDetermine 1) (by rfl)⟩

theorem selectAux_all_blank (post : List Section)
    (H : ∀ s ∈ post, s.1 = SectionType.BLANK_LINE) :
    ∀ buf, selectAux buf post = [] := by
  induction post with
  | nil => intro buf; rfl
  | cons s rest ih =>
    intro buf
    obtain ⟨t, c⟩ := s
    have ht : t = SectionType.BLANK_LINE := H (t, c) (by simp)
    rw [selectAux, if_pos ht]
    exact ih (fun s hs => H s (List.mem_cons_of_mem _ hs)) _

theorem selectAux_append_trailing (post : List Section)
    (H : ∀ s ∈ post, s.1 = SectionType.BLANK_LINE) :
    ∀ ss buf, selectAux buf (ss ++ post) = selectAux buf ss := by
  intro ss
  induction ss with
  | nil =>
    intro buf
    rw [List.nil_append, selectAux_all_blank post H buf]
    rfl
  | cons s rest ih =>
    intro buf
    obtain ⟨t, c⟩ := s
    rw [List.cons_append, selectAux, selectAux]
    by_cases ht : t = SectionType.BLANK_LINE
    · rw [if_pos ht, if_pos ht, ih]
    · rw [if_neg ht, if_neg ht, ih]

theorem selectAux_leading_blanks (pre : List Section)
    (H : ∀ s ∈ pre, s.1 = SectionType.BLANK_LINE) :
    ∀ (t : SectionType) (c : Lines) (rest : List Section),
      t ≠ SectionType.BLANK_LINE → ∀ buf : List Section,
      selectAux buf (pre ++ (t, c) :: rest) =
        buf ++ pre ++ (t, c) :: selectAux [] rest := by
  induction pre with
  | nil =>
    intro t c rest ht buf
    rw [List.nil_append, selectAux, if_neg ht, List.append_nil]
  | cons s pre' ih =>
    intro t c rest ht buf
    obtain ⟨t0, c0⟩ := s
    have ht0 : t0 = SectionType.BLANK_LINE := H (t0, c0) (by simp)
    rw [List.cons_append, selectAux, if_pos ht0,
      ih (fun s hs => H s (List.mem_cons_of_mem _ hs)) t c rest ht]
    simp

/-- C4 (amended): in the render phase of `_reformat_markdown_text`,
buffered Blank Line records are flushed before every following non-blank
section — including the first one, so a blank run preceding the first
non-blank section is emitted, not dropped — and only a buffered blank run
at document end is dropped, so blank lines following the last non-blank
section contribute nothing to the output. -/
theorem C4_blank_run_placement :
    (∀ (ss post : List Section),
      (∀ s ∈ post, s.1 = SectionType.BLANK_LINE) →
      selectSections (ss ++ post) = selectSections ss) ∧
    (∀ (pre : List Section) (t : SectionType) (c : Lines)
      (rest : List Section),
      (∀ s ∈ pre, s.1 = SectionType.BLANK_LINE) →
      t ≠ SectionType.BLANK_LINE →
      selectSections (pre ++ (t, c) :: rest) =
        pre ++ (t, c) :: selectAux [] rest) := by
  constructor
  · intro ss post H
    exact selectAux_append_trailing post H ss []
  · intro pre t c rest H ht
    rw [selectSections, selectAux_leading_blanks pre H t c rest ht []]
    rfl

/-- Witness for C4's amended statement: a trailing blank record is dropped,
and a leading blank record is emitted before the first paragraph. -/
theorem C4_blank_run_placement_witness :
    selectSections [(SectionType.PARAGRAPH, [toL "a"]),
        (SectionType.BLANK_LINE, [[]])] =
      selectSections [(SectionType.PARAGRAPH, [toL "a"])] ∧
    selectSections [(SectionType.BLANK_LINE, [[]]),
        (SectionType.PARAGRAPH, [toL "a"])] =
      [(SectionType.BLANK_LINE, [[]]),
        (SectionType.PARAGRAPH, [toL "a"])] :=
  ⟨C4_blank_run_placement.1 [(SectionType.PARAGRAPH, [toL "a"])]
      [(SectionType.BLANK_LINE, [[]])] (by decide),
   by
    have := C4_blank_run_placement.2 [(SectionType.BLANK_LINE, [[]])]
      SectionType.PARAGRAPH [toL "a"] [] (by decide) (by decide)
    simpa [selectAux] using this⟩

/-- Counterexample to C4 as stated: the render loop flushes the buffered
blank run before the *first* non-blank section as well, so a blank run at
document start is emitted, and the leading blank line of the document
`"\na"` survives into the reformatted output `"\na\n"`. -/
theorem C4_blank_run_placement_counterexample :
    selectSections [(SectionType.BLANK_LINE, [[]]),
        (SectionType.PARAGRAPH, [toL "a"])] =
      [(SectionType.BLANK_LINE, [[]]), (SectionType.PARAGRAPH, [toL "a"])] ∧
    reformat_markdown_text (toL "\na") 88 = .ok (toL "\na\n") ∧
    toL "\na\n" ≠ toL "a\n" := by
  refine ⟨by decide, by decide, by decide⟩

/-- C6: `is_paragraph_start_line` is exactly the complement of the eight
checker predicates (setext underlines are not in the complement set), so a
line of `=` characters such as `"==="` is simultaneously a paragraph start
and a setext underline. -/
theorem C6_paragraph_complement :
    (∀ l : Line, is_paragraph_start_line l = true ↔
      (is_indented_code_block_start_line l = false ∧
       is_atx_heading_line l = false ∧
       is_blank_line_line l = false ∧
       is_block_quote_line l = false ∧
       is_fenced_code_block_start_line l = false ∧
       is_list_start_line l = false ∧
       is_table_start_line l = false ∧
       is_thematic_break_line l = false)) ∧
    is_paragraph_start_line (toL "===") = true ∧
    is_setext_underline (toL "===") = true := by
  refine ⟨?_, by decide, by decide⟩
  intro l
  rw [is_paragraph_start_line]
  simp only [Bool.not_eq_true', Bool.or_eq_false_iff]
  tauto

theorem dropWhile_head_false (p : Char → Bool) :
    ∀ (l : List Char) c cs, l.dropWhile p = c :: cs → p c = false := by
  intro l
  induction l with
  | nil => intro c cs h; simp at h
  | cons a as ih =>
    intro c cs h
    rw [List.dropWhile] at h
    cases ha : p a with
    | true => rw [ha] at h; exact ih c cs h
    | false =>
      rw [ha] at h
      simp only [List.cons.injEq] at h
      rw [← h.1]; exact ha

theorem lstrip_eq_nil_of_strip_isEmpty (l : Line)
    (h : (strip l).isEmpty = true) : lstrip l = [] := by
  cases hl : lstrip l with
  | nil => rfl
  | cons c cs =>
    exfalso
    have hc : isPySpace c = false := dropWhile_head_false isPySpace l c cs hl
    rw [strip, hl, rstrip, List.isEmpty_iff, List.reverse_eq_nil_iff,
      List.dropWhile_eq_nil_iff] at h
    have := h c (by simp)
    rw [hc] at this
    exact Bool.false_ne_true this

/-- C7: `is_indented_code_block_start_line` holds exactly on non-blank
lines indented at least four columns; any line indented at least four
columns is never an ATX heading (even if its stripped text begins with
`#`); four leading spaces make an indented code block start, three do not
(such a line is a paragraph start instead). -/
theorem C7_indentation_threshold :
    (∀ l : Line, is_indented_code_block_start_line l = true ↔
      (is_blank_line_line l = false ∧ 4 ≤ get_indent l)) ∧
    (∀ l : Line, 4 ≤ get_indent l → is_atx_heading_line l = false) ∧
    is_indented_code_block_start_line (toL "    abc") = true ∧
    is_indented_code_block_start_line (toL "   abc") = false ∧
    is_paragraph_start_line (toL "   abc") = true ∧
    is_atx_heading_line (toL "    # x") = false := by
  refine ⟨?_, ?_, by decide, by decide, by decide, by decide⟩
  · intro l
    simp [is_indented_code_block_start_line, is_blank_line_line,
      Bool.and_eq_true, Bool.not_eq_true']
  · intro l h
    by_cases hb : (strip l).isEmpty
    · have hl := lstrip_eq_nil_of_strip_isEmpty l hb
      rw [is_atx_heading_line, hl]
      have hs : startsWithL [] (toL "#") = false := by decide
      rw [hs, Bool.and_false]
    · rw [is_atx_heading_line, is_indented_code_block_start_line]
      rw [Bool.not_eq_true] at hb
      simp [hb, h]

/-- Witness for C7: the line `"    # x"` is indented four columns, and the
theorem's second conjunct yields that it is not an ATX heading. -/
theorem C7_indentation_threshold_witness :
    is_atx_heading_line (toL "    # x") = false :=
  C7_indentation_threshold.2.1 (toL "    # x") (by decide)

/-- C10: the single-line predicates are not mutually exclusive: `"- - -"`
and `"* * *"` are simultaneously list starts and thematic breaks, so
exclusivity of section types rests on the splitter priority order. -/
theorem C10_predicates_not_exclusive :
    is_list_start_line (toL "- - -") = true ∧
    is_thematic_break_line (toL "- - -") = true ∧
    is_list_start_line (toL "* * *") = true ∧
    is_thematic_break_line (toL "* * *") = true := by
  refine ⟨by decide, by decide, by decide, by decide⟩

theorem paragraph_start_all_false (l : Line)
    (h : is_paragraph_start_line l = true) :
    is_indented_code_block_start_line l = false ∧
    is_atx_heading_line l = false ∧
    is_blank_line_line l = false ∧
    is_block_quote_line l = false ∧
    is_fenced_code_block_start_line l = false ∧
    is_list_start_line l = false ∧
    is_table_start_line l = false ∧
    is_thematic_break_line l = false := by
  rw [is_paragraph_start_line] at h
  simp only [Bool.not_eq_true', Bool.or_eq_false_iff] at h
  tauto

theorem split_atx_heading_no (l : Line) (rest : Lines)
    (h : is_atx_heading_line l = false) :
    split_atx_heading (l :: rest) = ([], l :: rest) := by
  simp [split_atx_heading, h]

theorem split_blank_line_no (l : Line) (rest : Lines)
    (h : is_blank_line_line l = false) :
    split_blank_line (l :: rest) = ([], l :: rest) := by
  simp [split_blank_line, List.takeWhile_cons, List.dropWhile_cons, h]

theorem split_block_quote_no (l : Line) (rest : Lines)
    (h : is_block_quote_line l = false) :
    split_block_quote (l :: rest) = ([], l :: rest) := by
  simp [split_block_quote, h]

theorem split_fenced_code_block_no (l : Line) (rest : Lines)
    (h : is_fenced_code_block_start_line l = false) :
    split_fenced_code_block (l :: rest) = ([], l :: rest) := by
  simp [split_fenced_code_block, h]

theorem split_indented_code_block_no (l : Line) (rest : Lines)
    (h : is_indented_code_block_start_line l = false) :
    split_indented_code_block (l :: rest) = ([], l :: rest) := by
  simp [split_indented_code_block, h]

theorem split_link_reference_definition_no (l : Line) (rest : Lines)
    (h : is_link_reference_definition_line l = false) :
    split_link_reference_definition (l :: rest) = ([], l :: rest) := by
  simp [split_link_reference_definition, h]

theorem split_list_no (l : Line) (rest : Lines)
    (h : is_list_start_line l = false) :
    split_list (l :: rest) = ([], l :: rest) := by
  simp [split_list, h]

theorem is_setext_underline_of_dashes (d : Line) (hd : d ≠ [])
    (hall : ∀ c ∈ d, c = '-') : is_setext_underline d = true := by
  obtain ⟨c, cs, rfl⟩ := List.exists_cons_of_ne_nil hd
  have hc : c = '-' := hall c (by simp)
  subst hc
  have hstrip : strip ('-' :: cs) = '-' :: cs := by
    have hl : lstrip ('-' :: cs) = '-' :: cs := by
      rw [lstrip, List.dropWhile_cons]
      simp [isPySpace]
    rw [strip, hl, rstrip]
    cases hrev : ('-' :: cs).reverse with
    | nil => simp at hrev
    | cons y ys =>
      have hy : y = '-' := by
        have : y ∈ ('-' :: cs).reverse := by rw [hrev]; simp
        exact hall y (List.mem_reverse.mp this)
      subst hy
      rw [List.dropWhile_cons]
      simp only [isPySpace]
      rw [← hrev]
      simp
  rw [is_setext_underline, hstrip]
  have hind : is_indented_code_block_start_line ('-' :: cs) = false := by
    rw [is_indented_code_block_start_line, hstrip]
    have : get_indent ('-' :: cs) = 0 := by
      rw [get_indent, List.takeWhile_cons]
      simp [isPySpace]
    rw [this]
    simp
  rw [hind]
  simp only [Bool.not_false, Bool.true_and, Bool.and_eq_true, Bool.or_eq_true]
  refine ⟨by simp, Or.inr ?_⟩
  rw [List.all_eq_true]
  intro x hx
  simpa using hall x hx

theorem split_setext_heading_match (p d : Line) (rest : Lines)
    (hp : is_paragraph_start_line p = true)
    (hu : is_setext_underline d = true) :
    split_setext_heading (p :: d :: rest) = ([p, d], rest) := by
  simp [split_setext_heading, hp, setextGo, hu]

/-- C5 (amended): the classification loop tries the splitters in the fixed
`SPLITTERS` order and takes the first non-empty consumed prefix, with
setext-heading before paragraph and indented-code-block before list and
paragraph; for every line sequence beginning with a paragraph line that is
not a link-reference-definition line, immediately followed by a non-empty
line of repeated `-` characters, the setext-heading splitter wins over both
the paragraph splitter and the thematic-break splitter for that leading
text line. -/
theorem C5_priority_determinism :
    SPLITTERS.map Prod.fst =
      [SectionType.ATX_HEADING, SectionType.BLANK_LINE,
       SectionType.BLOCK_QUOTE, SectionType.FENCED_CODE_BLOCK,
       SectionType.INDENTED_CODE_BLOCK,
       SectionType.LINK_REFERENCE_DEFINITION, SectionType.LIST,
       SectionType.SETEXT_HEADING, SectionType.PARAGRAPH,
       SectionType.TABLE, SectionType.THEMATIC_BREAK] ∧
    (∀ (p d : Line) (rest : Lines),
      is_paragraph_start_line p = true →
      is_link_reference_definition_line p = false →
      d ≠ [] → (∀ c ∈ d, c = '-') →
      trySplitters SPLITTERS (p :: d :: rest) =
        some (SectionType.SETEXT_HEADING, [p, d], rest)) := by
  refine ⟨by rfl, ?_⟩
  intro p d rest hp hlr hd hall
  obtain ⟨hind, hatx, hblank, hbq, hfen, hlist, -, -⟩ :=
    paragraph_start_all_false p hp
  have hu := is_setext_underline_of_dashes d hd hall
  simp only [SPLITTERS, trySplitters,
    split_atx_heading_no p (d :: rest) hatx,
    split_blank_line_no p (d :: rest) hblank,
    split_block_quote_no p (d :: rest) hbq,
    split_fenced_code_block_no p (d :: rest) hfen,
    split_indented_code_block_no p (d :: rest) hind,
    split_link_reference_definition_no p (d :: rest) hlr,
    split_list_no p (d :: rest) hlist,
    split_setext_heading_match p d rest hp hu]
  simp

/-- Witness for C5's amended statement at the document
`["a", "---", "b"]`. -/
theorem C5_priority_determinism_witness :
    trySplitters SPLITTERS [toL "a", toL "---", toL "b"] =
      some (SectionType.SETEXT_HEADING, [toL "a", toL "---"], [toL "b"]) :=
  C5_priority_determinism.2 (toL "a") (toL "---") [toL "b"]
    (by decide) (by decide) (by decide) (by decide)

/-- Counterexample to C5 as stated: `"[a]: b"` is a paragraph line, it is
followed by a line of repeated `-` characters, yet the first matching
splitter is the link-reference-definition splitter, which precedes the
setext-heading splitter in `SPLITTERS`, so the setext splitter does not win
for that leading line. -/
theorem C5_priority_determinism_counterexample :
    is_paragraph_start_line (toL "[a]: b") = true ∧
    (∀ c ∈ toL "---", c = '-') ∧
    trySplitters SPLITTERS [toL "[a]: b", toL "---"] =
      some (SectionType.LINK_REFERENCE_DEFINITION,
        [toL "[a]: b"], [toL "---"]) := by
  refine ⟨by decide, by decide, by decide⟩

/-- The last character of a piece of text, if any. -/
def lastChar (l : List Char) : Option Char := l.reverse.head?

/-- Text terminated by exactly one trailing line break: it ends with `'\n'`
and the character before that final `'\n'` (when present) is not `'\n'`. -/
def endsWithOneNL (l : List Char) : Bool :=
  match l.reverse with
  | [] => false
  | c :: rest =>
    decide (c = '\n') &&
      (match rest with
       | [] => true
       | d :: _ => decide (d ≠ '\n'))

theorem lastChar_append (a b : List Char) (hb : b ≠ []) :
    lastChar (a ++ b) = lastChar b := by
  rw [lastChar, lastChar, List.reverse_append]
  have hbr : b.reverse ≠ [] := by simpa using hb
  obtain ⟨y, ys, hrev⟩ := List.exists_cons_of_ne_nil hbr
  rw [hrev]
  rfl

theorem endsWithOneNL_append_nl (x : List Char) :
    endsWithOneNL (x ++ ['\n']) = true ↔ lastChar x ≠ some '\n' := by
  rw [endsWithOneNL, lastChar]
  rw [show (x ++ ['\n']).reverse = '\n' :: x.reverse by simp]
  cases hx : x.reverse with
  | nil => simp
  | cons d ds => simp

theorem joinSep_ne_nil (q : List Char) (ps : List (List Char))
    (hq : q ≠ []) : joinSep (q :: ps) ≠ [] := by
  cases ps with
  | nil => exact hq
  | cons r rs =>
    rw [joinSep]
    intro h
    have := congrArg List.length h
    simp at this

theorem lastChar_joinSep (parts : List (List Char))
    (H : ∀ p ∈ parts, p ≠ [] ∧ lastChar p ≠ some '\n') :
    lastChar (joinSep parts) ≠ some '\n' := by
  induction parts with
  | nil => rw [joinSep]; simp [lastChar]
  | cons p ps ih =>
    cases ps with
    | nil => exact (H p (by simp)).2
    | cons q qs =>
      rw [joinSep]
      have hq : q ≠ [] := (H q (by simp)).1
      have hjs : joinSep (q :: qs) ≠ [] := joinSep_ne_nil q qs hq
      rw [lastChar_append p ('\n' :: joinSep (q :: qs)) (by simp)]
      rw [show ('\n' :: joinSep (q :: qs)) = [] ++ ('\n' :: joinSep (q :: qs))
        by rfl]
      rw [show ([] : List Char) ++ ('\n' :: joinSep (q :: qs)) =
        ['\n'] ++ joinSep (q :: qs) by rfl]
      rw [lastChar_append ['\n'] (joinSep (q :: qs)) hjs]
      exact ih (fun r hr => H r (List.mem_cons_of_mem _ hr))

theorem reformatOnceWith_ok_shape
    (splitters : List (SectionType × Splitter)) (render : Render)
    (text : List Char) (width : Nat) (out : List Char)
    (h : reformatOnceWith splitters render text width = .ok out) :
    ∃ ss, classify splitters (splitlines text) = .ok ss ∧
      out = joinSep
          ((selectSections ss).map (fun s => render s.1 s.2 width)) ++
        ['\n'] := by
  rw [reformatOnceWith] at h
  cases hcl : classify splitters (splitlines text) with
  | error e => rw [hcl] at h; simp at h
  | ok ss =>
    rw [hcl] at h
    simp only [Except.ok.injEq] at h
    exact ⟨ss, rfl, h.symm⟩

/-- C9 (amended): assuming each renderer's reformatted output is non-empty
and carries no trailing line break of its own, every successful result of
`reformat_markdown_text` is terminated by exactly one trailing `'\n'`; and
for every renderer family the empty document reformats to exactly
`"\n"`. -/
theorem C9_trailing_newline :
    (∀ render : Render,
      (∀ t c w, render t c w ≠ [] ∧ lastChar (render t c w) ≠ some '\n') →
      ∀ (text : List Char) (w : Nat) (out : List Char),
        reformatG render text w = .ok out → endsWithOneNL out = true) ∧
    (∀ (render : Render) (w : Nat),
      reformatG render ([] : List Char) w = .ok ['\n']) := by
  constructor
  · intro render H text w out hok
    rw [reformatG] at hok
    cases h1 : reformatOnceWith SPLITTERS render text w with
    | error e => rw [h1] at hok; simp at hok
    | ok t1 =>
      rw [h1] at hok
      simp only at hok
      cases h2 : reformatOnceWith SPLITTERS render t1 w with
      | error e => rw [h2] at hok; simp at hok
      | ok t2 =>
        rw [h2] at hok
        simp only at hok
        by_cases heq : t2 = t1
        · rw [if_pos heq] at hok
          have ht1 : t1 = out := Except.ok.inj hok
          subst ht1
          obtain ⟨ss, -, hshape⟩ :=
            reformatOnceWith_ok_shape SPLITTERS render text w t1 h1
          rw [hshape]
          rw [endsWithOneNL_append_nl]
          refine lastChar_joinSep _ ?_
          intro p hp
          rw [List.mem_map] at hp
          obtain ⟨s, -, rfl⟩ := hp
          exact H s.1 s.2 w
        · rw [if_neg heq] at hok; simp at hok
  · intro render w
    rfl

/-- Witness for C9's amended statement: a constant renderer producing the
non-empty newline-free text `"x"` reformats `"hello"` to `"x\n"`, which
ends in exactly one line break. -/
theorem C9_trailing_newline_witness :
    endsWithOneNL (toL "x\n") = true :=
  C9_trailing_newline.1 (fun _ _ _ => toL "x")
    (fun t c w =>
      show toL "x" ≠ [] ∧ lastChar (toL "x") ≠ some '\n' by decide)
    (toL "hello") 88 (toL "x\n") (by decide)

/-- A renderer family satisfying the no-trailing-line-break assumption
whose paragraph output re-opens a code fence; used to refute C9 as
stated. -/
def cexRender : Render := fun t _ _ =>
  match t with
  | SectionType.PARAGRAPH => toL "x\n```"
  | _ => []

/-- Counterexample to C9 as stated: with a renderer family whose outputs
carry no trailing line break (but may be empty), `reformat_markdown_text`
can return text ending in two line breaks: the document `"x\n```\n\n"` is a
fixed point of the pipeline under `cexRender` (the trailing blank line
lives inside an unterminated fenced code block section, which renders to
the empty text), so it is returned unchanged. -/
theorem C9_trailing_newline_counterexample :
    ¬ (∀ render : Render,
        (∀ t c w, lastChar (render t c w) ≠ some '\n') →
        ∀ (text : List Char) (w : Nat) (out : List Char),
          reformatG render text w = .ok out → endsWithOneNL out = true) := by
  intro hclaim
  have hno : ∀ t c w, lastChar (cexRender t c w) ≠ some '\n' := by
    intro t c w
    cases t <;> first
      | exact show lastChar (toL "x\n```") ≠ some '\n' by decide
      | exact show lastChar ([] : List Char) ≠ some '\n' by decide
  have hok : reformatG cexRender (toL "x\n```\n\n") 88 =
      .ok (toL "x\n```\n\n") := by decide
  have hone := hclaim cexRender hno (toL "x\n```\n\n") 88
    (toL "x\n```\n\n") hok
  rw [show endsWithOneNL (toL "x\n```\n\n") = false by decide] at hone
  exact Bool.false_ne_true hone
